import Mathlib

/-!
Verification development for the MD_HX711 driver library (HX711 24-bit ADC).

The definitions below are a shallow embedding of the C++ sources
src/MD_HX711.h and src/MD_HX711.cpp.  Hardware interaction (pin writes,
microsecond delays, interrupt attachment) is modelled by an explicit event
trace; the level read from the data pin on each clock pulse is supplied as
an oracle function from the pulse index to a boolean.  Machine integers are
modelled as Nat or Int with explicit reduction modulo 2 to the width where
overflow can occur; the float fields are modelled over the rationals.
-/

namespace MDHX711

/-! ### Basic machine-integer helpers -/

/-- Reinterpret a natural number as a 32-bit two-complement signed integer,
as happens when an unsigned bit pattern is stored into an int32_t. -/
def toInt32 (n : Nat) : Int :=
  if n % 2 ^ 32 < 2 ^ 31 then (n % 2 ^ 32 : Int) else (n % 2 ^ 32 : Int) - 2 ^ 32

/-- Wrap-around behaviour of int32_t arithmetic: reduce an ideal integer into
the interval from -2^31 up to (but excluding) 2^31. -/
def wrap32 (x : Int) : Int := (x + 2 ^ 31) % 2 ^ 32 - 2 ^ 31

/-- A value representable in an int32_t variable. -/
def Int32Rep (x : Int) : Prop := -(2 ^ 31) ≤ x ∧ x < 2 ^ 31

/-! ### Protocol engine: MD_HX711::HX711ReadData (MD_HX711.cpp lines 377-413) -/

/-- The first do-while loop of HX711ReadData: one clock pulse per iteration,
sampling the data line while the mask is walked down from bit 23 by right
shifts.  Argument i is the index of the current pulse (used to query the
data-line oracle), value is the accumulator.  Returns the accumulated value
and the number of clock pulses emitted by the loop.  The loop terminates
because the mask at least halves every iteration; for structural recursion
the definition carries a fuel counter that bounds the remaining iteration
count and never runs out for the fuel chosen by the hxReadBits wrapper. -/
def hxReadBitsCore (bits : Nat → Bool) : (fuel i value mask : Nat) → Nat × Nat
  | 0, i, value, mask => (if bits i then value ||| mask else value, 1)
  | fuel + 1, i, value, mask =>
      let v := if bits i then value ||| mask else value
      let m := mask >>> 1
      if 0 < m then
        let r := hxReadBitsCore bits fuel (i + 1) v m
        (r.1, r.2 + 1)
      else
        (v, 1)

/-- The sampling do-while loop of HX711ReadData, with the fuel instantiated
to the initial mask, which always bounds the iteration count. -/
def hxReadBits (bits : Nat → Bool) (i : Nat) (value : Nat) (mask : Nat) : Nat × Nat :=
  hxReadBitsCore bits mask i value mask

/-- The second do-while loop of HX711ReadData: mode is a uint8_t that is
decremented once per clock pulse, the loop repeating while it is nonzero.
Returns the number of extra (unsampled) clock pulses emitted. -/
def hxSetModeLoop (mode : Nat) : Nat :=
  if h : 0 < (mode + 255) % 256 then 1 + hxSetModeLoop ((mode + 255) % 256) else 1
termination_by if mode = 0 then 256 else mode
decreasing_by
  split <;> split <;> omega

/-- Result of one protocol exchange: the assembled 24-bit value, the number
of sampled clock pulses and the number of extra (mode-setting) pulses. -/
structure HXRead where
  value : Nat
  sampledPulses : Nat
  extraPulses : Nat
deriving DecidableEq, Repr

/-- MD_HX711::HX711ReadData: 24 sampled pulses assembling the value from the
mask 0x800000 downwards, then the mode-setting pulse loop. -/
def HX711ReadData (mode : Nat) (bits : Nat → Bool) : HXRead :=
  let p := hxReadBits bits 0 0 0x800000
  { value := p.1, sampledPulses := p.2, extraPulses := hxSetModeLoop mode }

/-! ### Data model (MD_HX711.h) -/

/-- Channel indicator enumerated type. -/
inductive channel_t where
  | CH_A
  | CH_B
deriving DecidableEq, Repr

/-- The other channel, used to state non-interference of reads. -/
def channel_t.other : channel_t → channel_t
  | channel_t.CH_A => channel_t.CH_B
  | channel_t.CH_B => channel_t.CH_A

/-- Gain indicator enumerated type for Channel A. -/
inductive mode_t where
  | GAIN_128
  | GAIN_64
deriving DecidableEq, Repr

/-- Arduino interrupt trigger mode constants accepted by attachInterrupt. -/
inductive irqMode_t where
  | LOW
  | CHANGE
  | RISING
  | FALLING
deriving DecidableEq, Repr

/-- Per-channel record channelInfo_t of MD_HX711.h.  The int32_t fields are
modelled as ideal integers kept in 32-bit range by the operations; the
float range field is modelled over the rationals. -/
structure channelInfo_t where
  raw : Int
  tare : Int
  calib : Int
  range : ℚ
deriving DecidableEq, Repr

/-- Hardware side effects emitted by the driver, recorded as a trace.  The
attach event carries the irq number, the index of the globalISRx trampoline
entry taken from the ISRfunc lookup table, and the trigger mode constant
passed to attachInterrupt. -/
inductive HWEvent where
  | attachInterruptEv (irq : Nat) (slot : Nat) (trigger : irqMode_t)
  | detachInterruptEv (irq : Option Nat)
  | powerDownEv
  | powerUpEv
deriving DecidableEq, Repr

/-- Sentinel value marking an unassigned interrupt slot id. -/
def UINT8_MAX : Nat := 255

/-- Capacity of the interrupt instance registry. -/
def MAX_INSTANCE : Nat := 4

/-- Per-instance state of the MD_HX711 class.  The data pin is represented
by its interrupt capability: digitalPinToInterrupt yields some irq number,
or none standing for NOT_AN_INTERRUPT. -/
structure MD_HX711 where
  pinIrq : Option Nat
  enableB : Bool
  mode : mode_t
  nextReadA : Bool
  readCounter : Nat
  chanA : channelInfo_t
  chanB : channelInfo_t
  myISRId : Nat
  inISR : Bool
deriving DecidableEq, Repr

/-- The _chanData array indexed by channel. -/
def chanData (s : MD_HX711) : channel_t → channelInfo_t
  | channel_t.CH_A => s.chanA
  | channel_t.CH_B => s.chanB

/-- Assignment to _chanData[ch].raw. -/
def setChanRaw (s : MD_HX711) (ch : channel_t) (v : Int) : MD_HX711 :=
  match ch with
  | channel_t.CH_A => { s with chanA := { s.chanA with raw := v } }
  | channel_t.CH_B => { s with chanB := { s.chanB with raw := v } }

/-- MD_HX711::isInterruptMode: the slot assignment is the sole indicator. -/
def isInterruptMode (s : MD_HX711) : Bool := decide (s.myISRId ≠ UINT8_MAX)

/-- MD_HX711::enableChannelB. -/
def enableChannelB (s : MD_HX711) (ena : Bool) : MD_HX711 := { s with enableB := ena }

/-- MD_HX711::setGainA. -/
def setGainA (s : MD_HX711) (m : mode_t) : MD_HX711 := { s with mode := m }

/-- MD_HX711::setZeroTare. -/
def setZeroTare (s : MD_HX711) (tare : Int) (ch : channel_t) : MD_HX711 :=
  match ch with
  | channel_t.CH_A => { s with chanA := { s.chanA with tare := tare } }
  | channel_t.CH_B => { s with chanB := { s.chanB with tare := tare } }

/-- MD_HX711::getRaw. -/
def getRaw (s : MD_HX711) (ch : channel_t) : Int := (chanData s ch).raw

/-- MD_HX711::getZeroTare. -/
def getZeroTare (s : MD_HX711) (ch : channel_t) : Int := (chanData s ch).tare

/-- MD_HX711::getTared: the int32_t subtraction raw - tare, with int32_t
wrap-around semantics. -/
def getTared (s : MD_HX711) (ch : channel_t) : Int :=
  wrap32 ((chanData s ch).raw - (chanData s ch).tare)

/-- MD_HX711::getCalibrated.  The guard compares the int32_t difference
calib - tare against zero; the NAN result is modelled as none, and the
float computation of the defined branch is modelled exactly over ℚ. -/
def getCalibrated (s : MD_HX711) (ch : channel_t) : Option ℚ :=
  if wrap32 ((chanData s ch).calib - (chanData s ch).tare) = 0 then none
  else some ((chanData s ch).range
      * (((chanData s ch).raw : ℚ) - ((chanData s ch).tare : ℚ))
      / (((chanData s ch).calib : ℚ) - ((chanData s ch).tare : ℚ)))

/-- The sign-extension step of MD_HX711::readNB (MD_HX711.cpp line 363):
the 24-bit pattern held in an int32_t is or-ed with 0xff000000 when bit 23
is set. -/
def signExtend24 (value : Nat) : Int :=
  if value &&& 0x800000 ≠ 0 then toInt32 (value ||| 0xff000000) else toInt32 value

/-- Trace of one call to MD_HX711::readNB: the updated instance state, the
number of extra clock pulses requested from the protocol engine, the channel
whose record received the value, and the stored (sign-extended) value. -/
structure ReadNBResult where
  s : MD_HX711
  extras : Nat
  serviced : channel_t
  value : Int
deriving Repr

/-- MD_HX711::readNB (MD_HX711.cpp lines 334-375): toggle the next-channel
flag when Channel B is enabled, derive the extra pulse count, run the
protocol engine, sign extend, store into the serviced channel record and
bump the uint32_t read counter. -/
def readNB (s : MD_HX711) (bits : Nat → Bool) : ReadNBResult :=
  let nextA := if s.enableB then !s.nextReadA else s.nextReadA
  let extras : Nat := if !nextA then 2 else if s.mode = mode_t.GAIN_128 then 1 else 3
  let value : Int := signExtend24 (HX711ReadData extras bits).value
  let ch := if s.enableB && nextA then channel_t.CH_B else channel_t.CH_A
  let s1 := setChanRaw { s with nextReadA := nextA, inISR := true } ch value
  ⟨{ s1 with readCounter := (s.readCounter + 1) % 2 ^ 32, inISR := false },
   extras, ch, value⟩

/-- MD_HX711::read (MD_HX711.cpp lines 314-332), polled path: when not in
interrupt mode, perform the non-blocking read once data is ready, then
report the channel just read. -/
def read (s : MD_HX711) (bits : Nat → Bool) : MD_HX711 × channel_t :=
  if s.myISRId ≠ UINT8_MAX then
    (s, if s.enableB && s.nextReadA then channel_t.CH_B else channel_t.CH_A)
  else
    let r := readNB s bits
    (r.s, if r.s.enableB && r.s.nextReadA then channel_t.CH_B else channel_t.CH_A)

/-! ### Interrupt instance registry (MD_HX711.cpp lines 119-226) -/

/-- Global registry state: the ISRUsed allocation bit field (a uint8_t) and
the four myInstance slots, holding instance identifiers. -/
structure ISRGlobal where
  ISRUsed : Nat
  inst0 : Option Nat
  inst1 : Option Nat
  inst2 : Option Nat
  inst3 : Option Nat
deriving DecidableEq, Repr

/-- Read of myInstance[i]. -/
def myInstance (g : ISRGlobal) : Nat → Option Nat
  | 0 => g.inst0
  | 1 => g.inst1
  | 2 => g.inst2
  | 3 => g.inst3
  | _ => none

/-- Assignment to myInstance[i]. -/
def setMyInstance (g : ISRGlobal) (i : Nat) (v : Option Nat) : ISRGlobal :=
  match i with
  | 0 => { g with inst0 := v }
  | 1 => { g with inst1 := v }
  | 2 => { g with inst2 := v }
  | _ => { g with inst3 := v }

/-- The allocation scan of MD_HX711::enableISR: the first index i below
MAX_INSTANCE whose ISRUsed bit _BV(i) is clear, if any. -/
def findFreeSlot (u : Nat) : Option Nat :=
  if u &&& 1 <<< 0 = 0 then some 0
  else if u &&& 1 <<< 1 = 0 then some 1
  else if u &&& 1 <<< 2 = 0 then some 2
  else if u &&& 1 <<< 3 = 0 then some 3
  else none

/-- Result of MD_HX711::enableISR: success flag, updated registry, updated
instance and emitted hardware events. -/
structure EnableISRResult where
  ok : Bool
  g : ISRGlobal
  s : MD_HX711
  events : List HWEvent
deriving Repr

/-- MD_HX711::enableISR (MD_HX711.cpp lines 158-201).  The instId argument
stands for the this pointer recorded in myInstance. -/
def enableISR (g : ISRGlobal) (s : MD_HX711) (instId : Nat) : EnableISRResult :=
  if s.myISRId ≠ UINT8_MAX then ⟨false, g, s, []⟩
  else
    match s.pinIrq with
    | none => ⟨false, g, s, []⟩
    | some irq =>
        match findFreeSlot g.ISRUsed with
        | some i =>
            ⟨true,
             { setMyInstance g i (some instId) with ISRUsed := g.ISRUsed ||| 1 <<< i },
             { s with myISRId := i },
             [HWEvent.attachInterruptEv irq i irqMode_t.LOW,
              HWEvent.powerDownEv, HWEvent.powerUpEv]⟩
        | none => ⟨false, g, s, []⟩

/-- Clearing of the uint8_t allocation bit: ISRUsed &= ~_BV(i). -/
def clearBV8 (u i : Nat) : Nat := u &&& (255 ^^^ ((1 <<< i) % 256))

/-- Result of MD_HX711::disableISR and MD_HX711::reset. -/
structure StepResult where
  g : ISRGlobal
  s : MD_HX711
  events : List HWEvent
deriving Repr

/-- MD_HX711::disableISR (MD_HX711.cpp lines 203-226): when attached,
detach the platform interrupt and free the allocation bit; in all cases
clear the slot assignment and the in-handler flag. -/
def disableISR (g : ISRGlobal) (s : MD_HX711) : StepResult :=
  if s.myISRId ≠ UINT8_MAX then
    ⟨{ g with ISRUsed := clearBV8 g.ISRUsed s.myISRId },
     { s with myISRId := UINT8_MAX, inISR := false },
     [HWEvent.detachInterruptEv s.pinIrq]⟩
  else
    ⟨g, { s with myISRId := UINT8_MAX, inISR := false }, []⟩

/-- MD_HX711::reset (MD_HX711.cpp lines 228-248): power cycle, then set the
library defaults and zero both channel records. -/
def reset (g : ISRGlobal) (s : MD_HX711) : StepResult :=
  let s1 := setGainA (enableChannelB s false) mode_t.GAIN_128
  let d := disableISR g s1
  ⟨d.g,
   { d.s with
     nextReadA := true
     readCounter := 0
     chanA := { raw := 0, tare := 0, calib := 0, range := 0 }
     chanB := { raw := 0, tare := 0, calib := 0, range := 0 } },
   [HWEvent.powerDownEv, HWEvent.powerUpEv] ++ d.events⟩

/-- MD_HX711::enableInterruptMode (MD_HX711.cpp lines 145-156). -/
def enableInterruptMode (g : ISRGlobal) (s : MD_HX711) (instId : Nat) (enable : Bool) :
    EnableISRResult :=
  if enable then enableISR g s instId
  else
    let d := disableISR g s
    ⟨true, d.g, d.s, d.events⟩

/-- Iterated non-blocking reads: the instance state after n calls to
readNB, the data-line levels of call n supplied by bitss n. -/
def readNBiter (bitss : Nat → Nat → Bool) (s : MD_HX711) : Nat → MD_HX711
  | 0 => s
  | n + 1 => (readNB (readNBiter bitss s n) (bitss n)).s

/-! ### Concrete fixture states used by witnesses -/

/-- All-zero channel record. -/
def zeroChan : channelInfo_t := { raw := 0, tare := 0, calib := 0, range := 0 }

/-- Empty interrupt registry: no slot taken, as at program start. -/
def initISRGlobal : ISRGlobal :=
  { ISRUsed := 0, inst0 := none, inst1 := none, inst2 := none, inst3 := none }

/-- A freshly constructed instance in the library default state whose data
pin supports interrupts (irq number 2). -/
def freshInstance : MD_HX711 :=
  { pinIrq := some 2
    enableB := false
    mode := mode_t.GAIN_128
    nextReadA := true
    readCounter := 0
    chanA := zeroChan
    chanB := zeroChan
    myISRId := UINT8_MAX
    inISR := false }

/-- Registry state produced by four successful attaches starting from the
empty registry. -/
def fullRegistry : ISRGlobal :=
  (enableISR (enableISR (enableISR (enableISR initISRGlobal freshInstance 0).g
      freshInstance 1).g freshInstance 2).g freshInstance 3).g

/-! ### Lemmas about the protocol engine loops -/

/-- Bitwise or of values with disjoint binary support coincides with
addition. -/
theorem lor_eq_add_of_mod (K a b : Nat) (ha : a % 2 ^ K = 0) (hb : b < 2 ^ K) :
    a ||| b = a + b := by
  obtain ⟨m, rfl⟩ : ∃ m, a = 2 ^ K * m :=
    ⟨a / 2 ^ K, (Nat.mul_div_cancel' (Nat.dvd_of_mod_eq_zero ha)).symm⟩
  exact (Nat.mul_add_lt_is_or hb m).symm

/-- Unfolding of the sampling loop at the final mask value 1, any fuel. -/
theorem hxReadBitsCore_one (bits : Nat → Bool) (fuel i v : Nat) :
    hxReadBitsCore bits fuel i v 1 = (if bits i then v ||| 1 else v, 1) := by
  cases fuel <;> simp [hxReadBitsCore, Nat.shiftRight_one]

/-- Unfolding of the sampling loop at a mask with at least two bits of room:
one pulse is emitted and the loop continues with the mask shifted right. -/
theorem hxReadBitsCore_succ (bits : Nat → Bool) (f k i v : Nat) :
    hxReadBitsCore bits (f + 1) i v (2 ^ (k + 1))
      = ((hxReadBitsCore bits f (i + 1) (if bits i then v ||| 2 ^ (k + 1) else v) (2 ^ k)).1,
         (hxReadBitsCore bits f (i + 1) (if bits i then v ||| 2 ^ (k + 1) else v) (2 ^ k)).2
           + 1) := by
  have h2 : (2 : Nat) ^ (k + 1) >>> 1 = 2 ^ k := by
    rw [Nat.shiftRight_one, pow_succ, Nat.mul_div_cancel]
    norm_num
  simp only [hxReadBitsCore, h2]
  rw [if_pos (Nat.pos_pow_of_pos k (by norm_num))]

/-- The fuel argument of the sampling loop is irrelevant as soon as it
covers the iteration count. -/
theorem hxReadBitsCore_fuel (bits : Nat → Bool) :
    ∀ (k fuel i v : Nat), k ≤ fuel →
      hxReadBitsCore bits fuel i v (2 ^ k) = hxReadBitsCore bits k i v (2 ^ k) := by
  intro k
  induction k with
  | zero =>
      intro fuel i v _
      rw [pow_zero, hxReadBitsCore_one, hxReadBitsCore_one]
  | succ k ih =>
      intro fuel i v hf
      obtain ⟨f, rfl⟩ : ∃ f, fuel = f + 1 := ⟨fuel - 1, by omega⟩
      rw [hxReadBitsCore_succ, hxReadBitsCore_succ, ih f (i + 1) _ (by omega)]

/-- The sampling loop started at mask 2 ^ k runs its core with fuel k. -/
theorem hxReadBits_eq_core (bits : Nat → Bool) (k i v : Nat) :
    hxReadBits bits i v (2 ^ k) = hxReadBitsCore bits k i v (2 ^ k) := by
  rw [hxReadBits]
  exact hxReadBitsCore_fuel bits k (2 ^ k) i v (Nat.le_of_lt (Nat.lt_two_pow k))

/-- Core form: the bit-sampling loop at mask 2 ^ k emits k + 1 pulses. -/
theorem hxReadBitsCore_pulses (bits : Nat → Bool) :
    ∀ (k i v : Nat), (hxReadBitsCore bits k i v (2 ^ k)).2 = k + 1 := by
  intro k
  induction k with
  | zero =>
      intro i v
      rw [pow_zero, hxReadBitsCore_one]
  | succ k ih =>
      intro i v
      rw [hxReadBitsCore_succ, ih]

/-- The bit-sampling loop started at mask 2 ^ k emits exactly k + 1 pulses. -/
theorem hxReadBits_pulses (bits : Nat → Bool) :
    ∀ (k i v : Nat), (hxReadBits bits i v (2 ^ k)).2 = k + 1 := by
  intro k i v
  rw [hxReadBits_eq_core]
  exact hxReadBitsCore_pulses bits k i v

/-- Core form of the value computation of the bit-sampling loop. -/
theorem hxReadBitsCore_value (bits : Nat → Bool) :
    ∀ (k i v : Nat), v % 2 ^ (k + 1) = 0 →
      (hxReadBitsCore bits k i v (2 ^ k)).1
        = v + ∑ j ∈ Finset.range (k + 1), (if bits (i + j) then 2 ^ (k - j) else 0) := by
  intro k
  induction k with
  | zero =>
      intro i v hv
      rw [pow_zero, hxReadBitsCore_one, Finset.sum_range_one]
      by_cases hb : bits i
      · simp only [hb, Nat.add_zero, Nat.sub_zero, pow_zero, if_true]
        exact lor_eq_add_of_mod 1 v 1 (by simpa using hv) (by norm_num)
      · simp [hb]
  | succ k ih =>
      intro i v hv
      have hlt : (2 : Nat) ^ (k + 1) < 2 ^ (k + 2) := by
        have hp := Nat.pos_pow_of_pos (k + 1) (show 0 < 2 by norm_num)
        calc (2 : Nat) ^ (k + 1) < 2 ^ (k + 1) * 2 := by omega
          _ = 2 ^ (k + 2) := (pow_succ 2 (k + 1)).symm
      have hvor : (v ||| 2 ^ (k + 1)) = v + 2 ^ (k + 1) :=
        lor_eq_add_of_mod (k + 2) v (2 ^ (k + 1)) hv hlt
      have hmod : v % 2 ^ (k + 1) = 0 := by
        have h12 : (2 : Nat) ^ (k + 1) ∣ 2 ^ (k + 2) := pow_dvd_pow 2 (by omega)
        calc v % 2 ^ (k + 1) = v % 2 ^ (k + 2) % 2 ^ (k + 1) :=
              (Nat.mod_mod_of_dvd v h12).symm
          _ = 0 := by rw [hv, Nat.zero_mod]
      rw [hxReadBitsCore_succ]
      have hrec : (if bits i then v ||| 2 ^ (k + 1) else v) % 2 ^ (k + 1) = 0 := by
        by_cases hb : bits i
        · rw [if_pos hb, hvor]
          simp [Nat.add_mod, hmod]
        · rwa [if_neg hb]
      rw [ih (i + 1) _ hrec]
      have hsum : ∑ j ∈ Finset.range (k + 2), (if bits (i + j) then 2 ^ (k + 1 - j) else 0)
          = (∑ j ∈ Finset.range (k + 1), (if bits (i + 1 + j) then 2 ^ (k - j) else 0))
            + (if bits i then 2 ^ (k + 1) else 0) := by
        rw [Finset.sum_range_succ']
        congr 1
        exact Finset.sum_congr rfl fun j _ => by
          rw [show i + (j + 1) = i + 1 + j by omega, show k + 1 - (j + 1) = k - j by omega]
      rw [hsum]
      by_cases hb : bits i
      · rw [if_pos hb, if_pos hb, hvor]
        omega
      · rw [if_neg hb, if_neg hb]
        omega

/-- The bit-sampling loop started at mask 2 ^ k, with an accumulator whose
bits all lie strictly above bit k, adds in the bit weights selected by the
data-line oracle, most significant first. -/
theorem hxReadBits_value (bits : Nat → Bool) :
    ∀ (k i v : Nat), v % 2 ^ (k + 1) = 0 →
      (hxReadBits bits i v (2 ^ k)).1
        = v + ∑ j ∈ Finset.range (k + 1), (if bits (i + j) then 2 ^ (k - j) else 0) := by
  intro k i v hv
  rw [hxReadBits_eq_core]
  exact hxReadBitsCore_value bits k i v hv

/-- The mode-setting loop emits exactly mode pulses for nonzero uint8_t
arguments. -/
theorem hxSetModeLoop_eq : ∀ mode, 1 ≤ mode → mode ≤ 255 → hxSetModeLoop mode = mode := by
  intro mode
  induction mode with
  | zero => intro h _; omega
  | succ m ih =>
      intro _ h255
      rw [hxSetModeLoop]
      have hm : (m + 1 + 255) % 256 = m := by omega
      simp only [hm]
      by_cases h0 : 0 < m
      · rw [dif_pos h0, ih (by omega) (by omega)]
        omega
      · rw [dif_neg h0]
        omega

/-- A single ISRUsed allocation-bit test in terms of testBit. -/
theorem and_shiftLeft_eq_zero (u i : Nat) :
    (u &&& 1 <<< i = 0) ↔ u.testBit i = false := by
  rw [Nat.shiftLeft_eq, one_mul, Nat.and_two_pow]
  cases htb : u.testBit i
  · simp
  · simp [Nat.pow_eq_zero]

/-- C1: one protocol read with extraPulses in {1,2,3} emits exactly 24
sampled clock pulses followed by exactly extraPulses unsampled clock pulses
(so 25, 26 or 27 pulses in total), returns the 24-bit value assembled
MSB-first from the sampled data-line bits (pulse i contributing 2^(23-i)),
and the only call site of the protocol engine, readNB, always passes an
extra-pulse count in {1,2,3}. -/
theorem C1_read_protocol (mode : Nat) (hm : mode = 1 ∨ mode = 2 ∨ mode = 3)
    (bits : Nat → Bool) :
    (HX711ReadData mode bits).sampledPulses = 24 ∧
    (HX711ReadData mode bits).extraPulses = mode ∧
    25 ≤ (HX711ReadData mode bits).sampledPulses + (HX711ReadData mode bits).extraPulses ∧
    (HX711ReadData mode bits).sampledPulses + (HX711ReadData mode bits).extraPulses ≤ 27 ∧
    (HX711ReadData mode bits).value
      = ∑ i ∈ Finset.range 24, (if bits i then 2 ^ (23 - i) else 0) ∧
    (∀ (s : MD_HX711) (b : Nat → Bool),
      (readNB s b).extras = 1 ∨ (readNB s b).extras = 2 ∨ (readNB s b).extras = 3) := by
  have hmask : (0x800000 : Nat) = 2 ^ 23 := by norm_num
  have hsp : (HX711ReadData mode bits).sampledPulses = 24 := by
    simp only [HX711ReadData]
    rw [hmask]
    exact hxReadBits_pulses bits 23 0 0
  have hex : (HX711ReadData mode bits).extraPulses = mode := by
    simp only [HX711ReadData]
    rcases hm with rfl | rfl | rfl
    · exact hxSetModeLoop_eq 1 (by norm_num) (by norm_num)
    · exact hxSetModeLoop_eq 2 (by norm_num) (by norm_num)
    · exact hxSetModeLoop_eq 3 (by norm_num) (by norm_num)
  refine ⟨hsp, hex, by omega, by omega, ?_, ?_⟩
  · simp only [HX711ReadData]
    rw [hmask]
    have hval := hxReadBits_value bits 23 0 0 (by norm_num)
    rw [hval, Nat.zero_add]
    exact Finset.sum_congr rfl fun j _ => by rw [Nat.zero_add]
  · intro s b
    simp only [readNB]
    split_ifs <;> simp

/-- Witness for C1: a concrete run with mode 2 and all data bits high. -/
theorem C1_read_protocol_witness :
    (HX711ReadData 2 (fun _ => true)).sampledPulses = 24 ∧
    (HX711ReadData 2 (fun _ => true)).extraPulses = 2 ∧
    (HX711ReadData 2 (fun _ => true)).value = 0xffffff := by
  obtain ⟨h1, h2, -, -, h5, -⟩ := C1_read_protocol 2 (by norm_num) (fun _ => true)
  refine ⟨h1, h2, ?_⟩
  rw [h5]
  simp [Finset.sum_range_succ]

/-! ### Projection lemmas for the instance-state operations -/

@[simp] theorem setChanRaw_pinIrq (s : MD_HX711) (ch : channel_t) (v : Int) :
    (setChanRaw s ch v).pinIrq = s.pinIrq := by cases ch <;> rfl

@[simp] theorem setChanRaw_enableB (s : MD_HX711) (ch : channel_t) (v : Int) :
    (setChanRaw s ch v).enableB = s.enableB := by cases ch <;> rfl

@[simp] theorem setChanRaw_mode (s : MD_HX711) (ch : channel_t) (v : Int) :
    (setChanRaw s ch v).mode = s.mode := by cases ch <;> rfl

@[simp] theorem setChanRaw_nextReadA (s : MD_HX711) (ch : channel_t) (v : Int) :
    (setChanRaw s ch v).nextReadA = s.nextReadA := by cases ch <;> rfl

@[simp] theorem setChanRaw_readCounter (s : MD_HX711) (ch : channel_t) (v : Int) :
    (setChanRaw s ch v).readCounter = s.readCounter := by cases ch <;> rfl

@[simp] theorem setChanRaw_myISRId (s : MD_HX711) (ch : channel_t) (v : Int) :
    (setChanRaw s ch v).myISRId = s.myISRId := by cases ch <;> rfl

@[simp] theorem setChanRaw_inISR (s : MD_HX711) (ch : channel_t) (v : Int) :
    (setChanRaw s ch v).inISR = s.inISR := by cases ch <;> rfl

/-- The enable flag of Channel B is untouched by a non-blocking read. -/
theorem readNB_enableB (s : MD_HX711) (bits : Nat → Bool) :
    (readNB s bits).s.enableB = s.enableB := by
  simp [readNB]

/-- The gain mode is untouched by a non-blocking read. -/
theorem readNB_mode (s : MD_HX711) (bits : Nat → Bool) :
    (readNB s bits).s.mode = s.mode := by
  simp [readNB]

/-- The next-channel flag after a non-blocking read: toggled when Channel B
is enabled, unchanged otherwise. -/
theorem readNB_nextReadA (s : MD_HX711) (bits : Nat → Bool) :
    (readNB s bits).s.nextReadA = if s.enableB then !s.nextReadA else s.nextReadA := by
  simp [readNB]

/-- C4: for every 24-bit pattern v, the sign-extension step of readNB
yields exactly the two-complement value v - 2^24 (a negative number) when
bit 23 of v is set, and leaves the value unchanged and non-negative when
bit 23 is clear. -/
theorem C4_sign_extension (v : Nat) (hv : v < 2 ^ 24) :
    (v.testBit 23 = true →
      signExtend24 v = (v : Int) - 2 ^ 24 ∧ signExtend24 v < 0) ∧
    (v.testBit 23 = false →
      signExtend24 v = (v : Int) ∧ 0 ≤ signExtend24 v) := by
  rw [show (2 : Nat) ^ 24 = 16777216 by norm_num] at hv
  constructor
  · intro ht
    have hne : v &&& 0x800000 ≠ 0 := by
      rw [show (0x800000 : Nat) = 2 ^ 23 by norm_num, Nat.and_two_pow, ht]
      norm_num
    have hge : 8388608 ≤ v := by
      have hdm : v.testBit 23 = decide (v / 2 ^ 23 % 2 = 1) := Nat.testBit_to_div_mod
      rw [ht] at hdm
      have h1 : v / 2 ^ 23 % 2 = 1 := of_decide_eq_true hdm.symm
      rw [show (2 : Nat) ^ 23 = 8388608 by norm_num] at h1
      omega
    have hor : v ||| 0xff000000 = 0xff000000 + v := by
      rw [Nat.lor_comm]
      exact lor_eq_add_of_mod 24 0xff000000 v (by norm_num)
        (by rw [show (2 : Nat) ^ 24 = 16777216 by norm_num]; omega)
    have hm : (0xff000000 + v) % 2 ^ 32 = 0xff000000 + v :=
      Nat.mod_eq_of_lt (by rw [show (2 : Nat) ^ 32 = 4294967296 by norm_num]; omega)
    rw [signExtend24, if_pos hne, hor, toInt32, hm]
    rw [if_neg (by rw [show (2 : Nat) ^ 31 = 2147483648 by norm_num]; omega)]
    constructor
    · push_cast
      omega
    · push_cast
      omega
  · intro hf
    have heq : v &&& 0x800000 = 0 := by
      rw [show (0x800000 : Nat) = 2 ^ 23 by norm_num, Nat.and_two_pow, hf]
      norm_num
    have hm : v % 2 ^ 32 = v :=
      Nat.mod_eq_of_lt (by rw [show (2 : Nat) ^ 32 = 4294967296 by norm_num]; omega)
    rw [signExtend24, if_neg (fun hcon => hcon heq), toInt32, hm]
    rw [if_pos (by rw [show (2 : Nat) ^ 31 = 2147483648 by norm_num]; omega)]
    constructor
    · push_cast
      omega
    · push_cast
      omega

/-- Witness for C4: the pattern 0x800001 sign extends to -8388607, and the
pattern 0x400000 is left unchanged. -/
theorem C4_sign_extension_witness :
    (0x800001 : Nat) < 2 ^ 24 ∧ signExtend24 0x800001 = -8388607 := by
  have h := (C4_sign_extension 0x800001 (by norm_num)).1 (by decide)
  refine ⟨by norm_num, ?_⟩
  rw [h.1]
  norm_num

/-- C9 (amended): getTared returns exactly the mathematical difference
raw - tare, including for negative values, whenever that difference is
representable in the int32_t return type. -/
theorem C9_getTared_exact (s : MD_HX711) (ch : channel_t)
    (hlo : -(2 ^ 31) ≤ (chanData s ch).raw - (chanData s ch).tare)
    (hhi : (chanData s ch).raw - (chanData s ch).tare < 2 ^ 31) :
    getTared s ch = (chanData s ch).raw - (chanData s ch).tare := by
  rw [getTared, wrap32]
  rw [show (2 : Int) ^ 31 = 2147483648 by norm_num,
    show (2 : Int) ^ 32 = 4294967296 by norm_num] at *
  omega

/-- Counterexample for C9 as stated: with the reachable stored values
raw = 0 (from reset) and tare = -2^31 (storable through setZeroTare), the
int32_t subtraction wraps, so getTared returns -2^31 instead of the
mathematical difference 2^31. -/
theorem C9_getTared_counterexample :
    getTared (setZeroTare (reset initISRGlobal freshInstance).s (-(2 ^ 31))
        channel_t.CH_A) channel_t.CH_A = -(2 ^ 31) ∧
    (chanData (setZeroTare (reset initISRGlobal freshInstance).s (-(2 ^ 31))
        channel_t.CH_A) channel_t.CH_A).raw
      - (chanData (setZeroTare (reset initISRGlobal freshInstance).s (-(2 ^ 31))
          channel_t.CH_A) channel_t.CH_A).tare = 2 ^ 31 ∧
    (-(2 ^ 31) : Int) ≠ 2 ^ 31 := by
  refine ⟨by decide, by decide, by decide⟩

/-- Witness for C9: raw = -5 and tare = 3 give tared value -8. -/
theorem C9_getTared_exact_witness :
    getTared (setZeroTare (setChanRaw (reset initISRGlobal freshInstance).s
        channel_t.CH_A (-5)) 3 channel_t.CH_A) channel_t.CH_A = -8 := by
  have h := C9_getTared_exact (setZeroTare (setChanRaw
      (reset initISRGlobal freshInstance).s channel_t.CH_A (-5)) 3 channel_t.CH_A)
    channel_t.CH_A (by decide) (by decide)
  rw [h]
  decide

/-- C8: getCalibrated returns the NAN marker exactly when calib equals
tare, and otherwise the value range * (raw - tare) / (calib - tare); the
function is total, so neither case raises an error or a division fault. -/
theorem C8_getCalibrated (s : MD_HX711) (ch : channel_t)
    (hc : Int32Rep (chanData s ch).calib) (ht : Int32Rep (chanData s ch).tare) :
    (getCalibrated s ch = none ↔ (chanData s ch).calib = (chanData s ch).tare) ∧
    ((chanData s ch).calib ≠ (chanData s ch).tare →
      getCalibrated s ch
        = some ((chanData s ch).range
            * (((chanData s ch).raw : ℚ) - ((chanData s ch).tare : ℚ))
            / (((chanData s ch).calib : ℚ) - ((chanData s ch).tare : ℚ)))) := by
  obtain ⟨hc1, hc2⟩ := hc
  obtain ⟨ht1, ht2⟩ := ht
  have hz : wrap32 ((chanData s ch).calib - (chanData s ch).tare) = 0 ↔
      (chanData s ch).calib = (chanData s ch).tare := by
    rw [wrap32]
    rw [show (2 : Int) ^ 31 = 2147483648 by norm_num,
      show (2 : Int) ^ 32 = 4294967296 by norm_num] at *
    omega
  constructor
  · rw [getCalibrated]
    split_ifs with h
    · exact iff_of_true rfl (hz.mp h)
    · exact iff_of_false (by simp) (fun he => h (hz.mpr he))
  · intro hne
    rw [getCalibrated, if_neg (fun h0 => hne (hz.mp h0))]

/-- Witness for C8: the spec example raw = 1000, tare = 0, calib = 2000,
range = 5 yields the calibrated value 5/2, and setting calib equal to tare
yields the NAN marker. -/
theorem C8_getCalibrated_witness :
    getCalibrated { freshInstance with
        chanA := { raw := 1000, tare := 0, calib := 2000, range := 5 } }
      channel_t.CH_A = some (5 / 2 : ℚ) ∧
    getCalibrated freshInstance channel_t.CH_A = none := by
  constructor
  · have h := (C8_getCalibrated { freshInstance with
        chanA := { raw := 1000, tare := 0, calib := 2000, range := 5 } }
      channel_t.CH_A (by constructor <;> decide) (by constructor <;> decide)).2
      (by decide)
    rw [h]
    norm_num [chanData]
  · exact (C8_getCalibrated freshInstance channel_t.CH_A
      (by constructor <;> decide) (by constructor <;> decide)).1.mpr (by decide)

/-- C2: with Channel B enabled, two consecutive non-blocking reads service
different channels (strict A, B, A, B alternation); a call requests 2 extra
pulses exactly when the next call services Channel B, and 1 or 3 extra
pulses according to the configured Channel A gain when the next call
services Channel A; the sign-extended result is stored in the serviced
channel record, the other record being untouched. -/
theorem C2_alternation (s : MD_HX711) (bits1 bits2 : Nat → Bool)
    (hB : s.enableB = true) :
    ((readNB s bits1).serviced ≠ (readNB (readNB s bits1).s bits2).serviced) ∧
    ((readNB (readNB s bits1).s bits2).serviced = channel_t.CH_B →
      (readNB s bits1).extras = 2) ∧
    ((readNB (readNB s bits1).s bits2).serviced = channel_t.CH_A →
      (readNB s bits1).extras = (if s.mode = mode_t.GAIN_128 then 1 else 3)) ∧
    (chanData (readNB s bits1).s (readNB s bits1).serviced
      = { chanData s (readNB s bits1).serviced with raw := (readNB s bits1).value }) ∧
    (chanData (readNB s bits1).s ((readNB s bits1).serviced).other
      = chanData s ((readNB s bits1).serviced).other) := by
  cases hA : s.nextReadA <;> cases hm : s.mode <;>
    simp [readNB, setChanRaw, chanData, channel_t.other, hB, hA, hm]

/-- Witness for C2: a concrete instance with Channel B enabled, first read
servicing Channel A with 2 extra pulses requested, second read servicing
Channel B. -/
theorem C2_alternation_witness :
    (readNB { freshInstance with enableB := true } (fun _ => true)).serviced
        = channel_t.CH_A ∧
    (readNB (readNB { freshInstance with enableB := true } (fun _ => true)).s
        (fun _ => false)).serviced = channel_t.CH_B ∧
    (readNB { freshInstance with enableB := true } (fun _ => true)).extras = 2 := by
  have h := C2_alternation { freshInstance with enableB := true }
    (fun _ => true) (fun _ => false) rfl
  refine ⟨by decide, by decide, h.2.1 (by decide)⟩

/-- Library defaults established by reset: Channel B disabled and the next
read pointed at Channel A. -/
theorem reset_flags (g : ISRGlobal) (s : MD_HX711) :
    (reset g s).s.enableB = false ∧ (reset g s).s.nextReadA = true := by
  constructor <;> simp [reset, disableISR, enableChannelB, setGainA, apply_ite]

/-- Iterated reads leave the Channel B enable flag unchanged. -/
theorem readNBiter_enableB (bitss : Nat → Nat → Bool) (s : MD_HX711) :
    ∀ n, (readNBiter bitss s n).enableB = s.enableB := by
  intro n
  induction n with
  | zero => rfl
  | succ n ih => rw [readNBiter, readNB_enableB, ih]

/-- With Channel B enabled, two consecutive reads restore the next-channel
flag. -/
theorem readNB_twice_flag (s : MD_HX711) (bits1 bits2 : Nat → Bool)
    (hB : s.enableB = true) :
    (readNB (readNB s bits1).s bits2).s.nextReadA = s.nextReadA := by
  rw [readNB_nextReadA, readNB_enableB, readNB_nextReadA, hB]
  simp

/-- With Channel B enabled and the next-channel flag at A, an odd number of
reads leaves the flag pointing at B. -/
theorem readNBiter_odd_flag (bitss : Nat → Nat → Bool) (s : MD_HX711)
    (hB : s.enableB = true) (hA : s.nextReadA = true) :
    ∀ k, (readNBiter bitss s (2 * k + 1)).nextReadA = false := by
  intro k
  induction k with
  | zero =>
      show (readNBiter bitss s (0 + 1)).nextReadA = false
      rw [readNBiter, readNBiter, readNB_nextReadA, hB, hA]
      simp
  | succ k ih =>
      have h1 : 2 * (k + 1) + 1 = 2 * k + 1 + 1 + 1 := by ring
      have hB1 : (readNBiter bitss s (2 * k + 1)).enableB = true := by
        rw [readNBiter_enableB]
        exact hB
      rw [h1, readNBiter, readNBiter, readNB_twice_flag _ _ _ hB1, ih]

/-- C3: reset establishes the Channel B disabled state (flag at A), and
while Channel B stays disabled every read services Channel A with 1 extra
pulse for GAIN_128 or 3 for GAIN_64, never 2, never touches the Channel B
record, and preserves the invariant. -/
theorem C3_channelB_disabled :
    (∀ (g : ISRGlobal) (s : MD_HX711),
      (reset g s).s.enableB = false ∧ (reset g s).s.nextReadA = true) ∧
    (∀ (s : MD_HX711) (bits : Nat → Bool), s.enableB = false → s.nextReadA = true →
      (readNB s bits).serviced = channel_t.CH_A ∧
      (readNB s bits).extras = (if s.mode = mode_t.GAIN_128 then 1 else 3) ∧
      (readNB s bits).extras ≠ 2 ∧
      chanData (readNB s bits).s channel_t.CH_B = chanData s channel_t.CH_B ∧
      (readNB s bits).s.enableB = false ∧
      (readNB s bits).s.nextReadA = true) := by
  constructor
  · exact reset_flags
  · intro s bits hB hA
    cases hm : s.mode <;>
      simp [readNB, setChanRaw, chanData, hB, hA, hm]

/-- Witness for C3: the default instance reads Channel A with 1 extra
pulse. -/
theorem C3_channelB_disabled_witness :
    (readNB freshInstance (fun _ => true)).serviced = channel_t.CH_A ∧
    (readNB freshInstance (fun _ => true)).extras = 1 ∧
    (readNB freshInstance (fun _ => true)).s.nextReadA = true := by
  have h := C3_channelB_disabled.2 freshInstance (fun _ => true) rfl rfl
  refine ⟨h.1, ?_, h.2.2.2.2.2⟩
  rw [h.2.1]
  decide

/-- C10: when Channel B is disabled while the next-channel flag points at B
(reachable by enabling Channel B, reading an odd number of times and then
disabling it), every read keeps the flag at B, requests 2 extra pulses,
stores the value into the Channel A record and reports Channel A. -/
theorem C10_disabledB_flagB :
    (∀ (s : MD_HX711) (bits : Nat → Bool), s.enableB = false → s.nextReadA = false →
      (readNB s bits).s.nextReadA = false ∧
      (readNB s bits).s.enableB = false ∧
      (readNB s bits).extras = 2 ∧
      (readNB s bits).serviced = channel_t.CH_A ∧
      chanData (readNB s bits).s channel_t.CH_A
        = { chanData s channel_t.CH_A with raw := (readNB s bits).value } ∧
      chanData (readNB s bits).s channel_t.CH_B = chanData s channel_t.CH_B) ∧
    (∀ (g : ISRGlobal) (s0 : MD_HX711) (bitss : Nat → Nat → Bool) (k : Nat),
      (enableChannelB (readNBiter bitss
          (enableChannelB (reset g s0).s true) (2 * k + 1)) false).enableB = false ∧
      (enableChannelB (readNBiter bitss
          (enableChannelB (reset g s0).s true) (2 * k + 1)) false).nextReadA = false) := by
  constructor
  · intro s bits hB hA
    simp [readNB, setChanRaw, chanData, hB, hA]
  · intro g s0 bitss k
    refine ⟨rfl, ?_⟩
    show (readNBiter bitss (enableChannelB (reset g s0).s true) (2 * k + 1)).nextReadA
      = false
    exact readNBiter_odd_flag bitss (enableChannelB (reset g s0).s true) rfl
      ((reset_flags g s0).2) k

/-- Witness for C10: after reset, enable Channel B, one read, disable
Channel B; the following read requests 2 extras and stores into Channel A. -/
theorem C10_disabledB_flagB_witness :
    (readNB (enableChannelB (readNBiter (fun _ _ => true)
        (enableChannelB (reset initISRGlobal freshInstance).s true) 1) false)
      (fun _ => true)).extras = 2 ∧
    (readNB (enableChannelB (readNBiter (fun _ _ => true)
        (enableChannelB (reset initISRGlobal freshInstance).s true) 1) false)
      (fun _ => true)).serviced = channel_t.CH_A := by
  have hstate := (C10_disabledB_flagB.2 initISRGlobal freshInstance
    (fun _ _ => true) 0)
  have h := C10_disabledB_flagB.1 (enableChannelB (readNBiter (fun _ _ => true)
      (enableChannelB (reset initISRGlobal freshInstance).s true) 1) false)
    (fun _ => true) hstate.1 hstate.2
  exact ⟨h.2.2.1, h.2.2.2.1⟩

/-- Negated form of the allocation-bit test. -/
theorem and_shiftLeft_ne_zero (u i : Nat) :
    ¬(u &&& 1 <<< i = 0) ↔ u.testBit i = true := by
  rw [and_shiftLeft_eq_zero]
  cases u.testBit i <;> simp

/-- A slot returned by the allocation scan is the lowest free slot. -/
theorem findFreeSlot_lowest (u i : Nat) (h : findFreeSlot u = some i) :
    i < 4 ∧ u.testBit i = false ∧ ∀ j < i, u.testBit j = true := by
  rw [findFreeSlot] at h
  split_ifs at h with h0 h1 h2 h3
  · injection h with he
    subst he
    exact ⟨by norm_num, (and_shiftLeft_eq_zero u 0).mp h0, fun j hj => absurd hj (by omega)⟩
  · injection h with he
    subst he
    refine ⟨by norm_num, (and_shiftLeft_eq_zero u 1).mp h1, ?_⟩
    intro j hj
    interval_cases j
    exact (and_shiftLeft_ne_zero u 0).mp h0
  · injection h with he
    subst he
    refine ⟨by norm_num, (and_shiftLeft_eq_zero u 2).mp h2, ?_⟩
    intro j hj
    interval_cases j
    · exact (and_shiftLeft_ne_zero u 0).mp h0
    · exact (and_shiftLeft_ne_zero u 1).mp h1
  · injection h with he
    subst he
    refine ⟨by norm_num, (and_shiftLeft_eq_zero u 3).mp h3, ?_⟩
    intro j hj
    interval_cases j
    · exact (and_shiftLeft_ne_zero u 0).mp h0
    · exact (and_shiftLeft_ne_zero u 1).mp h1
    · exact (and_shiftLeft_ne_zero u 2).mp h2

/-- The allocation scan fails exactly when all four slots are occupied. -/
theorem findFreeSlot_none_iff (u : Nat) :
    findFreeSlot u = none ↔ ∀ j < 4, u.testBit j = true := by
  rw [findFreeSlot]
  split_ifs with h0 h1 h2 h3
  · refine iff_of_false (by simp) (fun hall => ?_)
    have hb := hall 0 (by norm_num)
    rw [(and_shiftLeft_eq_zero u 0).mp h0] at hb
    exact Bool.false_ne_true hb
  · refine iff_of_false (by simp) (fun hall => ?_)
    have hb := hall 1 (by norm_num)
    rw [(and_shiftLeft_eq_zero u 1).mp h1] at hb
    exact Bool.false_ne_true hb
  · refine iff_of_false (by simp) (fun hall => ?_)
    have hb := hall 2 (by norm_num)
    rw [(and_shiftLeft_eq_zero u 2).mp h2] at hb
    exact Bool.false_ne_true hb
  · refine iff_of_false (by simp) (fun hall => ?_)
    have hb := hall 3 (by norm_num)
    rw [(and_shiftLeft_eq_zero u 3).mp h3] at hb
    exact Bool.false_ne_true hb
  · refine iff_of_true rfl (fun j hj => ?_)
    interval_cases j
    · exact (and_shiftLeft_ne_zero u 0).mp h0
    · exact (and_shiftLeft_ne_zero u 1).mp h1
    · exact (and_shiftLeft_ne_zero u 2).mp h2
    · exact (and_shiftLeft_ne_zero u 3).mp h3

/-- Clearing the allocation bit _BV(i) of a uint8_t bit field clears bit i. -/
theorem testBit_clearBV8 (u i : Nat) (h : i < 4) :
    Nat.testBit (clearBV8 u i) i = false := by
  rw [clearBV8, Nat.testBit_and]
  interval_cases i
  · rw [(by decide : Nat.testBit ((255 : Nat) ^^^ ((1 <<< 0) % 256)) 0 = false),
      Bool.and_false]
  · rw [(by decide : Nat.testBit ((255 : Nat) ^^^ ((1 <<< 1) % 256)) 1 = false),
      Bool.and_false]
  · rw [(by decide : Nat.testBit ((255 : Nat) ^^^ ((1 <<< 2) % 256)) 2 = false),
      Bool.and_false]
  · rw [(by decide : Nat.testBit ((255 : Nat) ^^^ ((1 <<< 3) % 256)) 3 = false),
      Bool.and_false]

/-- C7: after reset the instance holds the library defaults (Channel B
disabled, gain 128, next channel A, read counter 0, both channel records
zeroed), the interrupt slot assignment is cleared, a held slot (an id
below 4) has its occupancy bit released, and the registry is untouched
when no slot was held. -/
theorem C7_reset_defaults (g : ISRGlobal) (s : MD_HX711) :
    (reset g s).s.enableB = false ∧
    (reset g s).s.mode = mode_t.GAIN_128 ∧
    (reset g s).s.nextReadA = true ∧
    (reset g s).s.readCounter = 0 ∧
    (reset g s).s.chanA = zeroChan ∧
    (reset g s).s.chanB = zeroChan ∧
    (reset g s).s.myISRId = UINT8_MAX ∧
    (s.myISRId < 4 → Nat.testBit (reset g s).g.ISRUsed s.myISRId = false) ∧
    (s.myISRId = UINT8_MAX → (reset g s).g = g) := by
  refine ⟨?_, ?_, ?_, ?_, ?_, ?_, ?_, ?_, ?_⟩
  · simp [reset, disableISR, enableChannelB, setGainA, apply_ite]
  · simp [reset, disableISR, enableChannelB, setGainA, apply_ite]
  · simp [reset]
  · simp [reset]
  · simp [reset, zeroChan]
  · simp [reset, zeroChan]
  · simp [reset, disableISR, enableChannelB, setGainA, apply_ite]
  · intro h4
    have hne : s.myISRId ≠ UINT8_MAX := by
      rw [UINT8_MAX]
      omega
    simp only [reset, disableISR, enableChannelB, setGainA]
    rw [if_pos hne]
    exact testBit_clearBV8 g.ISRUsed s.myISRId h4
  · intro h255
    simp only [reset, disableISR, enableChannelB, setGainA]
    rw [if_neg (by simp [h255])]

/-- Witness for C7: resetting an attached instance (slot 2 held, occupancy
bits 0b0100) releases the slot and restores the defaults. -/
theorem C7_reset_defaults_witness :
    (reset { initISRGlobal with ISRUsed := 4, inst2 := some 9 }
        { freshInstance with myISRId := 2, enableB := true }).s.myISRId = UINT8_MAX ∧
    Nat.testBit (reset { initISRGlobal with ISRUsed := 4, inst2 := some 9 }
        { freshInstance with myISRId := 2, enableB := true }).g.ISRUsed 2 = false ∧
    (reset { initISRGlobal with ISRUsed := 4, inst2 := some 9 }
        { freshInstance with myISRId := 2, enableB := true }).s.enableB = false := by
  have h := C7_reset_defaults { initISRGlobal with ISRUsed := 4, inst2 := some 9 }
    { freshInstance with myISRId := 2, enableB := true }
  exact ⟨h.2.2.2.2.2.2.1, h.2.2.2.2.2.2.2.1 (by decide), h.1⟩

/-- C5 (amended): a successful attach records the instance at the lowest
free slot of the registry, sets that occupancy bit, registers the platform
interrupt on the data pin irq bound to the trampoline of that slot with
the LOW trigger mode, then performs a power-down and power-up cycle, and
returns true. -/
theorem C5_attach_success (g : ISRGlobal) (s : MD_HX711) (instId irq i : Nat)
    (hno : s.myISRId = UINT8_MAX) (hpin : s.pinIrq = some irq)
    (hslot : findFreeSlot g.ISRUsed = some i) :
    (enableISR g s instId).ok = true ∧
    (enableISR g s instId).s = { s with myISRId := i } ∧
    myInstance (enableISR g s instId).g i = some instId ∧
    Nat.testBit (enableISR g s instId).g.ISRUsed i = true ∧
    i < 4 ∧ Nat.testBit g.ISRUsed i = false ∧
    (∀ j < i, Nat.testBit g.ISRUsed j = true) ∧
    (enableISR g s instId).events
      = [HWEvent.attachInterruptEv irq i irqMode_t.LOW,
         HWEvent.powerDownEv, HWEvent.powerUpEv] := by
  obtain ⟨hi4, hbit, hlow⟩ := findFreeSlot_lowest g.ISRUsed i hslot
  have he : enableISR g s instId
      = ⟨true,
         { setMyInstance g i (some instId) with ISRUsed := g.ISRUsed ||| 1 <<< i },
         { s with myISRId := i },
         [HWEvent.attachInterruptEv irq i irqMode_t.LOW,
          HWEvent.powerDownEv, HWEvent.powerUpEv]⟩ := by
    simp [enableISR, hno, hpin, hslot]
  rw [he]
  refine ⟨rfl, rfl, ?_, ?_, hi4, hbit, hlow, rfl⟩
  · interval_cases i <;> rfl
  · rw [Nat.testBit_lor, (by rw [Nat.shiftLeft_eq, one_mul] : (1 <<< i : Nat) = 2 ^ i),
      Nat.testBit_two_pow_self, Bool.or_true]

/-- Counterexample for C5 as stated: attaching a fresh instance on the
empty registry registers the interrupt with the LOW level trigger mode,
not with a falling-edge trigger as the claim asserts. -/
theorem C5_attach_counterexample :
    (enableISR initISRGlobal freshInstance 7).events
      = [HWEvent.attachInterruptEv 2 0 irqMode_t.LOW,
         HWEvent.powerDownEv, HWEvent.powerUpEv] ∧
    irqMode_t.LOW ≠ irqMode_t.FALLING ∧
    (∀ sl : Nat, HWEvent.attachInterruptEv 2 sl irqMode_t.FALLING
      ∉ (enableISR initISRGlobal freshInstance 7).events) := by
  have hev : (enableISR initISRGlobal freshInstance 7).events
      = [HWEvent.attachInterruptEv 2 0 irqMode_t.LOW,
         HWEvent.powerDownEv, HWEvent.powerUpEv] := by decide
  refine ⟨hev, by decide, ?_⟩
  intro sl hmem
  rw [hev] at hmem
  simp at hmem

/-- Witness for C5: attaching a fresh instance on the empty registry takes
slot 0, records instance id 7 there and succeeds. -/
theorem C5_attach_success_witness :
    (enableISR initISRGlobal freshInstance 7).ok = true ∧
    (enableISR initISRGlobal freshInstance 7).s = { freshInstance with myISRId := 0 } ∧
    myInstance (enableISR initISRGlobal freshInstance 7).g 0 = some 7 ∧
    Nat.testBit (enableISR initISRGlobal freshInstance 7).g.ISRUsed 0 = true := by
  have h := C5_attach_success initISRGlobal freshInstance 7 2 0 rfl rfl (by decide)
  exact ⟨h.1, h.2.1, h.2.2.1, h.2.2.2.1⟩

/-- C6: attach returns false exactly when the instance is already attached,
the data pin has no interrupt capability, or all four slots are occupied;
in every failure case the registry (slot table and occupancy bit field),
the instance and the hardware are left untouched. -/
theorem C6_attach_failure (g : ISRGlobal) (s : MD_HX711) (instId : Nat) :
    ((enableISR g s instId).ok = false ↔
      (s.myISRId ≠ UINT8_MAX ∨ s.pinIrq = none ∨
        ∀ j < 4, Nat.testBit g.ISRUsed j = true)) ∧
    ((enableISR g s instId).ok = false →
      (enableISR g s instId).g = g ∧ (enableISR g s instId).s = s ∧
      (enableISR g s instId).events = []) := by
  by_cases hA : s.myISRId = UINT8_MAX
  · cases hp : s.pinIrq with
    | none =>
        have he : enableISR g s instId = ⟨false, g, s, []⟩ := by
          simp [enableISR, hA, hp]
        rw [he]
        exact ⟨iff_of_true rfl (Or.inr (Or.inl rfl)), fun _ => ⟨rfl, rfl, rfl⟩⟩
    | some irq =>
        cases hf : findFreeSlot g.ISRUsed with
        | none =>
            have he : enableISR g s instId = ⟨false, g, s, []⟩ := by
              simp [enableISR, hA, hp, hf]
            rw [he]
            exact ⟨iff_of_true rfl
                (Or.inr (Or.inr ((findFreeSlot_none_iff g.ISRUsed).mp hf))),
              fun _ => ⟨rfl, rfl, rfl⟩⟩
        | some i =>
            have he : (enableISR g s instId).ok = true := by
              simp [enableISR, hA, hp, hf]
            rw [he]
            constructor
            · refine iff_of_false (by simp) ?_
              rintro (h1 | h2 | h3)
              · exact h1 hA
              · exact Option.noConfusion h2
              · have hn := (findFreeSlot_none_iff g.ISRUsed).mpr h3
                rw [hf] at hn
                exact Option.noConfusion hn
            · intro hfalse
              exact absurd hfalse (by simp)
  · have he : enableISR g s instId = ⟨false, g, s, []⟩ := by
      rw [enableISR, if_pos hA]
    rw [he]
    exact ⟨iff_of_true rfl (Or.inl hA), fun _ => ⟨rfl, rfl, rfl⟩⟩

/-- Witness for C6: a fifth attach on the registry produced by four
successful attaches fails and leaves the registry, with its four slot
entries and occupancy bits, and the candidate instance unchanged. -/
theorem C6_attach_failure_witness :
    (enableISR fullRegistry freshInstance 4).ok = false ∧
    (enableISR fullRegistry freshInstance 4).g = fullRegistry ∧
    (enableISR fullRegistry freshInstance 4).s = freshInstance ∧
    fullRegistry.ISRUsed = 15 ∧
    myInstance fullRegistry 0 = some 0 ∧ myInstance fullRegistry 1 = some 1 ∧
    myInstance fullRegistry 2 = some 2 ∧ myInstance fullRegistry 3 = some 3 := by
  have h := C6_attach_failure fullRegistry freshInstance 4
  have hfail : (enableISR fullRegistry freshInstance 4).ok = false :=
    h.1.mpr (Or.inr (Or.inr (by decide)))
  have hun := h.2 hfail
  exact ⟨hfail, hun.1, hun.2.1, by decide, by decide, by decide, by decide, by decide⟩
